import Mathlib

/-!
Verification development for the contriboo profile commit-counting library.

The definitions below are a shallow embedding of the Python sources:

* `contriboo/repository_name.py` (`RepositoryName`),
* `contriboo/profile/service.py` (`ProfileAnalysisService`),
* `contriboo/integrations/github/requests_provider.py` (`GitHubProvider`),
* `contriboo/integrations/git/gateway.py` (`GitGateway`),
* `contriboo/exceptions.py` (error message constructors).

Python strings are modelled as Lean `String`; `str.strip()` is modelled by
dropping whitespace characters from both ends (`Char.isWhitespace` standing
in for Python's whitespace class) and `str.lower()` by `Char.toLower` on each
character.  Fallible Python code (raising a `ContribooError` subclass) is
modelled with `Except String`, carrying the exception message.  Wall-clock
timestamps (`started_at` / `finished_at`), local sleeping, and on-disk paths
are I/O effects outside the embedding; external collaborators (HTTP session,
git subprocesses) are passed in as explicit environment values.
-/

deriving instance DecidableEq for Except

namespace Contriboo

/-- Python whitespace test used by `str.strip()`. -/
def isPySpace (c : Char) : Bool := c.isWhitespace

/-- Embedding of Python `str.strip()` on the character list of a string:
remove leading and trailing whitespace. -/
def pyStripList (l : List Char) : List Char :=
  (l.dropWhile isPySpace).rdropWhile isPySpace

/-- Embedding of Python `str.strip()`. -/
def pyStrip (s : String) : String := ⟨pyStripList s.data⟩

/-- Embedding of Python `str.strip().lower()`, the normalization applied by
`ProfileAnalysisService._normalize_identity` and `_normalize_signature`. -/
def pyNorm (s : String) : String := ⟨(pyStripList s.data).map Char.toLower⟩

/-- Embedding of Python `value.split(sep, maxsplit=1)` restricted to the
separator-found information: `none` when `sep` does not occur (Python returns
a one-element list), otherwise the parts before and after the first `sep`. -/
def splitFirst (sep : Char) : List Char → Option (List Char × List Char)
  | [] => none
  | c :: rest =>
    if c = sep then some ([], rest)
    else
      match splitFirst sep rest with
      | none => none
      | some (pre, post) => some (c :: pre, post)

/-- Message of `InvalidRepositoryNameError.invalid_format` in `exceptions.py`. -/
def InvalidRepositoryNameError.invalid_format : String :=
  "repository name must be in format 'owner/repo'"

/-- Message of `InvalidRepositoryNameError.slash_in_part` in `exceptions.py`. -/
def InvalidRepositoryNameError.slash_in_part : String :=
  "owner and repo must not contain '/'"

/-- Value object from `repository_name.py`: frozen dataclass with `_owner`
and `_repo` fields; equality is structural. -/
structure RepositoryName where
  owner : String
  repo : String
deriving DecidableEq, Repr

/-- Embedding of `RepositoryName.__post_init__`: validates the parts and
raises `InvalidRepositoryNameError` on empty or slash-containing parts. -/
def RepositoryName.post_init (owner repo : String) : Except String RepositoryName :=
  if owner = "" ∨ repo = "" then .error InvalidRepositoryNameError.invalid_format
  else if ('/' ∈ owner.data) ∨ ('/' ∈ repo.data) then
    .error InvalidRepositoryNameError.slash_in_part
  else .ok ⟨owner, repo⟩

/-- Embedding of `RepositoryName.parse`: split on the first `/`
(`value.split("/", maxsplit=1)`), require exactly two parts, strip both
parts, then run the dataclass validation. -/
def RepositoryName.parse (value : String) : Except String RepositoryName :=
  match splitFirst '/' value.data with
  | none => .error InvalidRepositoryNameError.invalid_format
  | some (p0, p1) =>
    RepositoryName.post_init ⟨pyStripList p0⟩ ⟨pyStripList p1⟩

/-- Embedding of `RepositoryName.as_full_name`. -/
def RepositoryName.as_full_name (r : RepositoryName) : String :=
  r.owner ++ "/" ++ r.repo

/-- Commit signature from `profile/models.py`: four raw strings. -/
structure CommitSignature where
  author_email : String
  author_name : String
  committer_email : String
  committer_name : String
deriving DecidableEq, Repr

/-- Outcome status of one repository scan (`Literal["ok", "skipped"]`). -/
inductive Status where
  | ok
  | skipped
deriving DecidableEq, Repr

/-- Per-repository outcome record from `profile/models.py`
(`RepositoryCommitCount`). -/
structure RepositoryCommitCount where
  full_name : RepositoryName
  branch : Option String
  commit_count : Nat
  status : Status
  error : Option String
deriving DecidableEq, Repr

/-- Aggregate result from `profile/models.py` (`ProfileCommitCountResult`).
The `started_at`/`finished_at` wall-clock timestamps are I/O effects and are
not modelled. -/
structure ProfileCommitCountResult where
  total_commits : Nat
  repos_scanned : Nat
  repos_skipped : Nat
  repo_results : List RepositoryCommitCount
deriving DecidableEq, Repr

/-- Message of `InvalidDaysRangeError.must_be_positive_int_or_all`. -/
def InvalidDaysRangeError.must_be_positive_int_or_all : String :=
  "days must be positive int or 'all'"

/-- Runtime values that can reach the `days` parameter
(`DaysRange = int | Literal["all"]`, but Python callers can also pass a
`bool` -- a subclass of `int` -- or an arbitrary string). -/
inductive DaysRange where
  | intDays (n : Int)
  | boolDays (b : Bool)
  | strDays (s : String)
deriving DecidableEq, Repr

/-- Embedding of `ProfileAnalysisService._validate_days`:
`days == "all"` passes; `isinstance(days, bool)`, non-`int`, or `days <= 0`
raise `InvalidDaysRangeError.must_be_positive_int_or_all()`. -/
def validate_days : DaysRange → Except String Unit
  | .strDays s =>
    if s = "all" then .ok ()
    else .error InvalidDaysRangeError.must_be_positive_int_or_all
  | .boolDays _ => .error InvalidDaysRangeError.must_be_positive_int_or_all
  | .intDays n =>
    if n ≤ 0 then .error InvalidDaysRangeError.must_be_positive_int_or_all
    else .ok ()

/-- Embedding of `ProfileAnalysisService._normalize_identity`:
`username.strip().lower(), (email or "").strip().lower()`. -/
def normalize_identity (username : String) (email : Option String) :
    String × String :=
  (pyNorm username, pyNorm (email.getD ""))

/-- Embedding of `ProfileAnalysisService._normalize_signature`: the four
fields, stripped and lower-cased, in the source's return order
`(author_name, committer_name, author_email, committer_email)`. -/
def normalize_signature (sig : CommitSignature) :
    String × String × String × String :=
  (pyNorm sig.author_name, pyNorm sig.committer_name,
   pyNorm sig.author_email, pyNorm sig.committer_email)

/-- Per-commit match decision, the loop body of
`ProfileAnalysisService._count_matching_commits`: the email test fires when
the normalized input email is truthy (non-empty) and equals the normalized
author or committer email; on an email match the loop `continue`s without
testing the username; otherwise the username test fires when the normalized
input username is truthy and equals the normalized author or committer
name. -/
def signature_matches (normalized_username normalized_email : String)
    (sig : CommitSignature) : Bool :=
  match normalize_signature sig with
  | (author_name, committer_name, author_email, committer_email) =>
    let matches_email :=
      normalized_email != "" &&
        (normalized_email == author_email || normalized_email == committer_email)
    if matches_email then true
    else
      normalized_username != "" &&
        (normalized_username == author_name ||
          normalized_username == committer_name)

/-- Embedding of `ProfileAnalysisService._count_matching_commits` as a fold
over the streamed commit signatures. -/
def count_matching_commits (normalized_username normalized_email : String)
    (sigs : List CommitSignature) : Nat :=
  sigs.foldl
    (fun commit_count sig =>
      if signature_matches normalized_username normalized_email sig then
        commit_count + 1
      else commit_count)
    0

/-- Top-level per-commit match with un-normalized identity, composing
`_normalize_identity` with the matching loop body. -/
def commit_matches (username : String) (email : Option String)
    (sig : CommitSignature) : Bool :=
  signature_matches (normalize_identity username email).1
    (normalize_identity username email).2 sig

/-- Embedding of `GitGateway.resolve_mainline_branch`, parameterized by the
outcome of the `git rev-parse --verify origin/<branch>` probe
(`GitGateway._has_branch`, which catches `GitOperationError` and returns a
boolean): probe `main`, then `master`, else `None`. -/
def resolve_mainline_branch (has_branch : String → Bool) : Option String :=
  if has_branch "main" then some "main"
  else if has_branch "master" then some "master"
  else none

/-- External-world outcomes for one repository scan: the result of the
`git clone` call, the branch-probe results, and the result of reading the
commit log (`iter_commit_signatures`).  Errors carry the raised
`ContribooError` message. -/
structure RepoEnv where
  clone_result : Except String Unit
  has_branch : String → Bool
  log_result : Except String (List CommitSignature)

/-- Embedding of `ProfileAnalysisService._scan_single_repository`: any
`ContribooError` raised by clone / branch probing / log reading is caught at
the per-repository boundary and becomes a `skipped` record with
`branch=None` and `commit_count=0`; a `None` branch resolution becomes a
`skipped` record with the fixed reason; otherwise an `ok` record with the
matching-commit count. -/
def scan_single_repository (env : RepoEnv) (repository_name : RepositoryName)
    (normalized_username normalized_email : String) : RepositoryCommitCount :=
  match env.clone_result with
  | .error msg =>
    { full_name := repository_name, branch := none, commit_count := 0,
      status := .skipped, error := some msg }
  | .ok _ =>
    match resolve_mainline_branch env.has_branch with
    | none =>
      { full_name := repository_name, branch := none, commit_count := 0,
        status := .skipped, error := some "main/master branch not found" }
    | some branch =>
      match env.log_result with
      | .error msg =>
        { full_name := repository_name, branch := none, commit_count := 0,
          status := .skipped, error := some msg }
      | .ok sigs =>
        { full_name := repository_name, branch := some branch,
          commit_count :=
            count_matching_commits normalized_username normalized_email sigs,
          status := .ok, error := none }

/-- Embedding of `ProfileAnalysisService._scan_repositories`: sequential
scan in discovery order, one record per repository. -/
def scan_repositories (env : RepositoryName → RepoEnv)
    (repositories : List RepositoryName)
    (normalized_username normalized_email : String) :
    List RepositoryCommitCount :=
  repositories.map fun repository_name =>
    scan_single_repository (env repository_name) repository_name
      normalized_username normalized_email

/-- Embedding of `ProfileAnalysisService._build_result`:
`total_commits` sums `commit_count` over all records, `repos_scanned` is the
length of the discovered repository list, `repos_skipped` counts records
with status `skipped`. -/
def build_result (repositories : List RepositoryName)
    (repo_results : List RepositoryCommitCount) : ProfileCommitCountResult :=
  { total_commits := (repo_results.map fun item => item.commit_count).sum
  , repos_scanned := repositories.length
  , repos_skipped :=
      (repo_results.filter fun item => item.status == .skipped).length
  , repo_results := repo_results }

/-- Embedding of `ProfileAnalysisService._empty_result`. -/
def empty_result : ProfileCommitCountResult :=
  { total_commits := 0, repos_scanned := 0, repos_skipped := 0,
    repo_results := [] }

/-- Embedding of `ProfileAnalysisService.count_total_commits`, with the two
external collaborators passed in as values: `provider` is the outcome of
`find_repositories_for_author` (discovery failures propagate unmodified) and
`env` gives each repository's git outcomes.  Validation runs before the
provider value is consulted, mirroring the source order. -/
def count_total_commits (provider : Except String (List RepositoryName))
    (env : RepositoryName → RepoEnv) (username : String)
    (email : Option String) (days : DaysRange) :
    Except String ProfileCommitCountResult :=
  match validate_days days with
  | .error e => .error e
  | .ok _ =>
    match provider with
    | .error e => .error e
    | .ok repositories =>
      if repositories.isEmpty then .ok empty_result
      else
        match normalize_identity username email with
        | (normalized_username, normalized_email) =>
          .ok (build_result repositories
            (scan_repositories env repositories
              normalized_username normalized_email))

/-- GitHub search item as consumed by `find_repositories_for_author`:
`item.repository.full_name`, with `none` standing for a missing repository
object or a `null` full name. -/
structure SearchItem where
  full_name : Option String
deriving DecidableEq, Repr

/-- Per-page params of the commit-search request: the fixed
`per_page = 100` from `requests_provider.py`. -/
def SEARCH_PAGE_SIZE : Nat := 100

/-- The inner loop of `GitHubProvider.find_repositories_for_author`: for
each item, when `item.repository and item.repository.full_name` is truthy,
parse it and insert into the insertion-ordered dict keyed by the structural
repository name (re-inserting an existing key keeps its first position). -/
def add_page_items (acc : List RepositoryName) :
    List SearchItem → Except String (List RepositoryName)
  | [] => .ok acc
  | item :: rest =>
    match item.full_name with
    | some s =>
      if s ≠ "" then
        match RepositoryName.parse s with
        | .error e => .error e
        | .ok repository_name =>
          add_page_items
            (if repository_name ∈ acc then acc else acc ++ [repository_name])
            rest
      else add_page_items acc rest
    | none => add_page_items acc rest

/-- The page loop of `GitHubProvider.find_repositories_for_author`:
`for page in range(1, max_search_pages + 1)`, requesting
`(page, per_page=100)`, breaking after the first page with no items.
Returns the list of issued `(page, per_page)` requests together with the
resulting deduplicated repository list (or the propagated parse error). -/
def fetch_pages (pages : Nat → List SearchItem) (page remaining : Nat)
    (acc : List RepositoryName) :
    List (Nat × Nat) × Except String (List RepositoryName) :=
  match remaining with
  | 0 => ([], .ok acc)
  | n + 1 =>
    let items := pages page
    if items.isEmpty then ([(page, SEARCH_PAGE_SIZE)], .ok acc)
    else
      match add_page_items acc items with
      | .error e => ([(page, SEARCH_PAGE_SIZE)], .error e)
      | .ok acc2 =>
        let rest := fetch_pages pages (page + 1) n acc2
        ((page, SEARCH_PAGE_SIZE) :: rest.1, rest.2)

/-- Embedding of `GitHubProvider.find_repositories_for_author`, with the
search backend modelled as the 1-indexed page contents. -/
def find_repositories_for_author (pages : Nat → List SearchItem)
    (max_search_pages : Nat) : Except String (List RepositoryName) :=
  (fetch_pages pages 1 max_search_pages []).2

/-- The `(page, per_page)` requests issued by
`find_repositories_for_author`. -/
def search_requests (pages : Nat → List SearchItem)
    (max_search_pages : Nat) : List (Nat × Nat) :=
  (fetch_pages pages 1 max_search_pages []).1

/-- Constant `GITHUB_RATE_LIMIT_STATUS` from `requests_provider.py`. -/
def GITHUB_RATE_LIMIT_STATUS : Nat := 403

/-- Constant `LOCAL_RATE_LIMIT_RETRY_WINDOW_SEC` from
`requests_provider.py`. -/
def LOCAL_RATE_LIMIT_RETRY_WINDOW_SEC : Int := 60

/-- The information `_handle_rate_limit` reads from a `requests.HTTPError`:
whether a response object is attached, its status code, the
`X-RateLimit-Remaining` and `X-RateLimit-Reset` headers, and the value of
`time.time()` at handling time. -/
structure HttpErrorInfo where
  has_response : Bool
  status : Nat
  remaining : Option String
  reset : Option Int
  now : Int
deriving DecidableEq, Repr

/-- Embedding of `GitHubProvider._handle_rate_limit`: `.ok false` means "not
a rate limit, do not retry", `.ok true` means "slept locally, retry the same
request", `.error wait` models raising
`GitHubRateLimitError.exceeded(wait_seconds)`. -/
def handle_rate_limit (e : HttpErrorInfo) : Except Int Bool :=
  if e.has_response = false then .ok false
  else if e.status ≠ GITHUB_RATE_LIMIT_STATUS ∨ e.remaining ≠ some "0" ∨
      e.reset = none then .ok false
  else
    let wait_seconds : Int := e.reset.getD 0 - e.now + 1
    if 0 < wait_seconds ∧ wait_seconds ≤ LOCAL_RATE_LIMIT_RETRY_WINDOW_SEC then
      .ok true
    else .error wait_seconds

/-- The wait value reported inside the message built by
`GitHubRateLimitError.exceeded`: `max(wait_seconds, 0)`. -/
def reported_wait (wait_seconds : Int) : Int := max wait_seconds 0

/-- Message built by `GitHubRateLimitError.exceeded` in `exceptions.py`. -/
def GitHubRateLimitError.exceeded (wait_seconds : Int) : String :=
  "GitHub rate limit exceeded. Wait about " ++
    toString (reported_wait wait_seconds) ++ "s or use token."

/-- Outcome of one GET attempt inside `GitHubProvider._get_json`: a decoded
response (object or not), a `requests.HTTPError`, or a connection/timeout
failure. -/
inductive AttemptOutcome where
  | success (is_object : Bool)
  | httpError (info : HttpErrorInfo)
  | connError

/-- Errors surfaced by `_get_json`, by exception class. -/
inductive GetJsonError where
  | schemaError
  | apiError
  | connectionError
  | rateLimit (wait_seconds : Int)
deriving DecidableEq, Repr

/-- The body of `_get_json`'s `for attempt in range(1, retries + 1)` loop.
`fuel` is the number of loop iterations left (`retries - attempt + 1`); a
rate-limit `continue` proceeds to the next iteration, consuming one
iteration exactly like a transient-failure retry; when the loop ends
without returning, `GitHubApiError.request_failed()` is raised. -/
def get_json_aux (attempts : Nat → AttemptOutcome) (retries : Nat) :
    Nat → Nat → Except GetJsonError Unit
  | _, 0 => .error .apiError
  | attempt, fuel + 1 =>
    match attempts attempt with
    | .success true => .ok ()
    | .success false => .error .schemaError
    | .httpError info =>
      match handle_rate_limit info with
      | .ok true => get_json_aux attempts retries (attempt + 1) fuel
      | .ok false => .error .apiError
      | .error wait_seconds => .error (.rateLimit wait_seconds)
    | .connError =>
      if attempt < retries then get_json_aux attempts retries (attempt + 1) fuel
      else .error .connectionError

/-- Embedding of `GitHubProvider._get_json`, with the transport modelled as
the outcome of each 1-indexed attempt. -/
def get_json (attempts : Nat → AttemptOutcome) (retries : Nat) :
    Except GetJsonError Unit :=
  get_json_aux attempts retries 1 retries

/-- Decides whether an attempt outcome is an in-window rate limit, i.e. one
on which `_handle_rate_limit` sleeps and asks for a retry. -/
def retryable_rate_limit : AttemptOutcome → Bool
  | .httpError info =>
    match handle_rate_limit info with
    | .ok true => true
    | _ => false
  | _ => false

/-- Claim-side predicate for C1: the repository's environment fails
acquisition (clone raises) or branch resolution (no `main`/`master`). -/
def acq_or_branch_failed (env : RepoEnv) : Bool :=
  match env.clone_result with
  | .error _ => true
  | .ok _ => (resolve_mainline_branch env.has_branch).isNone

/-- Claim-side predicate for C1: clone, branch resolution and log reading
all succeed. -/
def fully_successful (env : RepoEnv) : Bool :=
  match env.clone_result, env.log_result with
  | .ok _, .ok _ => !(resolve_mainline_branch env.has_branch).isNone
  | _, _ => false

/-- The matching-commit count of a fully successful repository. -/
def success_count (env : RepoEnv)
    (normalized_username normalized_email : String) : Nat :=
  match env.log_result with
  | .ok sigs => count_matching_commits normalized_username normalized_email sigs
  | .error _ => 0

/-- Claim-side predicate for C5: the valid `days` values per the spec
(positive integer or the `"all"` sentinel). -/
def valid_days_spec : DaysRange → Prop
  | .intDays n => 0 < n
  | .boolDays _ => False
  | .strDays s => s = "all"

/-- Decidable pointwise case-insensitive character-list equality, used to
state "differs only by case". -/
def caseEqListB : List Char → List Char → Bool
  | [], [] => true
  | a :: as, b :: bs => (a.toLower == b.toLower) && caseEqListB as bs
  | _, _ => false

/-- Claim-side relation for C2: two strings differ only by character case
and surrounding whitespace (their stripped forms are equal up to case). -/
def caseWsVariant (s t : String) : Prop :=
  caseEqListB (pyStripList s.data) (pyStripList t.data) = true

instance caseWsVariant.decidable (s t : String) :
    Decidable (caseWsVariant s t) :=
  decidable_of_iff
    (caseEqListB (pyStripList s.data) (pyStripList t.data) = true) Iff.rfl

/-- Specification-side predicate for C9: the string splits on the first `/`
into exactly two non-empty, slash-free segments. -/
def SplitsCleanly (s : String) : Prop :=
  ∃ o r : List Char,
    s.data = o ++ '/' :: r ∧ o ≠ [] ∧ r ≠ [] ∧ '/' ∉ o ∧ '/' ∉ r

lemma splitFirst_of_not_mem {sep : Char} {o : List Char} (r : List Char)
    (h : sep ∉ o) : splitFirst sep (o ++ sep :: r) = some (o, r) := by
  induction o with
  | nil => simp [splitFirst]
  | cons c cs ih =>
    have hc : c ≠ sep := by
      intro hcs
      exact h (by simp [hcs])
    have hcs : sep ∉ cs := fun hm => h (List.mem_cons_of_mem _ hm)
    simp [splitFirst, hc, ih hcs]

lemma splitFirst_sound {sep : Char} :
    ∀ {l p0 p1 : List Char}, splitFirst sep l = some (p0, p1) →
      l = p0 ++ sep :: p1 ∧ sep ∉ p0 := by
  intro l
  induction l with
  | nil => intro p0 p1 h; simp [splitFirst] at h
  | cons c rest ih =>
    intro p0 p1 h
    by_cases hc : c = sep
    · simp [splitFirst, hc] at h
      obtain ⟨h0, h1⟩ := h
      subst h0; subst h1; subst hc
      simp
    · simp only [splitFirst, if_neg hc] at h
      cases hsp : splitFirst sep rest with
      | none => rw [hsp] at h; simp at h
      | some pr =>
        rw [hsp] at h
        obtain ⟨pre, post⟩ := pr
        simp at h
        obtain ⟨h0, h1⟩ := h
        obtain ⟨hrest, hpre⟩ := ih hsp
        subst h0; subst h1
        constructor
        · simp [hrest]
        · intro hmem
          rcases List.mem_cons.mp hmem with h | h
          · exact hc h.symm
          · exact hpre h

lemma dropWhile_cons_head {p : Char → Bool} :
    ∀ {l c : List Char} {x : Char}, l.dropWhile p = x :: c → p x = false := by
  intro l
  induction l with
  | nil => intro c x h; simp [List.dropWhile] at h
  | cons a rest ih =>
    intro c x h
    by_cases ha : p a
    · rw [List.dropWhile_cons_of_pos ha] at h
      exact ih h
    · rw [List.dropWhile_cons_of_neg ha] at h
      cases h
      exact Bool.of_not_eq_true ha

lemma pyStripList_idem (l : List Char) :
    pyStripList (pyStripList l) = pyStripList l := by
  unfold pyStripList
  have hpre := List.rdropWhile_prefix isPySpace (l.dropWhile isPySpace)
  obtain ⟨t, ht⟩ := hpre
  have hself :
      ((l.dropWhile isPySpace).rdropWhile isPySpace).dropWhile isPySpace =
        (l.dropWhile isPySpace).rdropWhile isPySpace := by
    cases hm : (l.dropWhile isPySpace).rdropWhile isPySpace with
    | nil => simp
    | cons x xs =>
      rw [hm] at ht
      have hdl : l.dropWhile isPySpace = x :: (xs ++ t) := by
        rw [← ht]; simp
      have hx : isPySpace x = false := dropWhile_cons_head hdl
      simp [List.dropWhile_cons, hx]
  rw [hself, List.rdropWhile_idempotent]

lemma mem_pyStripList_of_mem {c : Char} {l : List Char}
    (hc : isPySpace c = false) (hm : c ∈ l) : c ∈ pyStripList l := by
  unfold pyStripList
  have h1 : c ∈ l.dropWhile isPySpace := by
    have hsplit := List.takeWhile_append_dropWhile (p := isPySpace) (l := l)
    rw [← hsplit] at hm
    rcases List.mem_append.mp hm with h | h
    · have := List.mem_takeWhile_imp h
      rw [this] at hc
      exact absurd hc (by simp)
    · exact h
  set m := l.dropWhile isPySpace with hmdef
  have hsplit2 : m.rdropWhile isPySpace ++ m.rtakeWhile isPySpace = m := by
    unfold List.rdropWhile List.rtakeWhile
    rw [← List.reverse_append, List.takeWhile_append_dropWhile (p := isPySpace)]
    simp
  rw [← hsplit2] at h1
  rcases List.mem_append.mp h1 with h | h
  · exact h
  · have := List.mem_rtakeWhile_imp h
    rw [this] at hc
    exact absurd hc (by simp)

lemma pyStripList_ne_nil_of_strip_ne_nil {l : List Char}
    (h : pyStripList l ≠ []) : l ≠ [] := by
  intro hl
  subst hl
  exact h (by simp [pyStripList])

lemma string_data_append (a b : String) : (a ++ b).data = a.data ++ b.data :=
  rfl

lemma parse_eq_of_splitFirst {s : String} {p0 p1 : List Char}
    (hsp : splitFirst '/' s.data = some (p0, p1)) :
    RepositoryName.parse s =
      RepositoryName.post_init ⟨pyStripList p0⟩ ⟨pyStripList p1⟩ := by
  unfold RepositoryName.parse
  rw [hsp]

lemma parse_eq_of_splitFirst_none {s : String}
    (hsp : splitFirst '/' s.data = none) :
    RepositoryName.parse s = .error InvalidRepositoryNameError.invalid_format := by
  unfold RepositoryName.parse
  rw [hsp]

/-- Helper: a successful parse yields stripped, non-empty, slash-free parts. -/
lemma parse_ok_shape {s : String} {r : RepositoryName}
    (h : RepositoryName.parse s = .ok r) :
    ∃ p0 p1 : List Char,
      s.data = p0 ++ '/' :: p1 ∧ '/' ∉ p0 ∧
      r.owner.data = pyStripList p0 ∧ r.repo.data = pyStripList p1 ∧
      r.owner.data ≠ [] ∧ r.repo.data ≠ [] ∧
      '/' ∉ r.owner.data ∧ '/' ∉ r.repo.data := by
  cases hsp : splitFirst '/' s.data with
  | none => rw [parse_eq_of_splitFirst_none hsp] at h; simp at h
  | some pr =>
    obtain ⟨p0, p1⟩ := pr
    rw [parse_eq_of_splitFirst hsp] at h
    obtain ⟨hdata, hp0⟩ := splitFirst_sound hsp
    refine ⟨p0, p1, hdata, hp0, ?_⟩
    unfold RepositoryName.post_init at h
    by_cases hemp : (⟨pyStripList p0⟩ : String) = "" ∨ (⟨pyStripList p1⟩ : String) = ""
    · simp [hemp] at h
    · rw [if_neg hemp] at h
      by_cases hslash :
          ('/' ∈ (⟨pyStripList p0⟩ : String).data) ∨
            ('/' ∈ (⟨pyStripList p1⟩ : String).data)
      · simp [hslash] at h
      · rw [if_neg hslash] at h
        cases h
        push_neg at hemp hslash
        obtain ⟨he0, he1⟩ := hemp
        obtain ⟨hs0, hs1⟩ := hslash
        refine ⟨rfl, rfl, ?_, ?_, hs0, hs1⟩
        · intro hn
          exact he0 (by apply congrArg String.mk; exact hn)
        · intro hn
          exact he1 (by apply congrArg String.mk; exact hn)

theorem repository_name_parse_roundtrip {s : String} {r : RepositoryName}
    (h : RepositoryName.parse s = .ok r) :
    RepositoryName.parse r.as_full_name = .ok r := by
  obtain ⟨p0, p1, _, _, how, hrep, hne0, hne1, hns0, hns1⟩ := parse_ok_shape h
  have hdata : r.as_full_name.data = r.owner.data ++ '/' :: r.repo.data := by
    unfold RepositoryName.as_full_name
    rw [string_data_append, string_data_append]
    simp [String.data]
  have hsp : splitFirst '/' r.as_full_name.data = some (r.owner.data, r.repo.data) := by
    rw [hdata]
    exact splitFirst_of_not_mem _ hns0
  rw [parse_eq_of_splitFirst hsp]
  have hso : pyStripList r.owner.data = r.owner.data := by
    rw [how]; exact pyStripList_idem p0
  have hsr : pyStripList r.repo.data = r.repo.data := by
    rw [hrep]; exact pyStripList_idem p1
  unfold RepositoryName.post_init
  have hne0' : (⟨pyStripList r.owner.data⟩ : String) ≠ "" := by
    rw [hso]
    intro hc
    exact hne0 (congrArg String.data hc)
  have hne1' : (⟨pyStripList r.repo.data⟩ : String) ≠ "" := by
    rw [hsr]
    intro hc
    exact hne1 (congrArg String.data hc)
  rw [if_neg (by push_neg; exact ⟨hne0', hne1'⟩)]
  rw [if_neg (by
    push_neg
    constructor
    · show '/' ∉ (⟨pyStripList r.owner.data⟩ : String).data
      rw [hso]; exact hns0
    · show '/' ∉ (⟨pyStripList r.repo.data⟩ : String).data
      rw [hsr]; exact hns1)]
  have : (⟨pyStripList r.owner.data⟩ : String) = r.owner := by
    rw [hso]
  have h2 : (⟨pyStripList r.repo.data⟩ : String) = r.repo := by
    rw [hsr]
  rw [this, h2]

theorem repository_name_parse_fails {s : String} (h : ¬ SplitsCleanly s) :
    (RepositoryName.parse s).isOk = false := by
  cases hp : RepositoryName.parse s with
  | error e => rfl
  | ok r =>
    exfalso
    apply h
    obtain ⟨p0, p1, hdata, hp0, how, hrep, hne0, hne1, _, hns1⟩ := parse_ok_shape hp
    refine ⟨p0, p1, hdata, ?_, ?_, hp0, ?_⟩
    · intro hn
      subst hn
      exact hne0 (by rw [how]; simp [pyStripList])
    · intro hn
      subst hn
      exact hne1 (by rw [hrep]; simp [pyStripList])
    · intro hmem
      apply hns1
      rw [hrep]
      exact mem_pyStripList_of_mem (by decide) hmem

example : RepositoryName.parse "a/b" = .ok ⟨"a", "b"⟩ := by decide
example : RepositoryName.parse " a / b " = .ok ⟨"a", "b"⟩ := by decide
example : (RepositoryName.parse "onlyowner").isOk = false := by decide
example : (RepositoryName.parse "/repo").isOk = false := by decide
example : (RepositoryName.parse "owner/").isOk = false := by decide
example : (RepositoryName.parse "a/b/c").isOk = false := by decide
example : (RepositoryName.as_full_name ⟨"a", "b"⟩) = "a/b" := by decide

lemma resolve_mainline_branch_cases (has_branch : String → Bool) :
    resolve_mainline_branch has_branch = none ∨
    resolve_mainline_branch has_branch = some "main" ∨
    resolve_mainline_branch has_branch = some "master" := by
  unfold resolve_mainline_branch
  split_ifs <;> simp

lemma scan_single_clone_error {env : RepoEnv} {name : RepositoryName}
    {nU nE msg : String} (hc : env.clone_result = .error msg) :
    scan_single_repository env name nU nE =
      { full_name := name, branch := none, commit_count := 0,
        status := .skipped, error := some msg } := by
  unfold scan_single_repository
  rw [hc]

lemma scan_single_no_branch {env : RepoEnv} {name : RepositoryName}
    {nU nE : String} (hc : env.clone_result = .ok ())
    (hr : resolve_mainline_branch env.has_branch = none) :
    scan_single_repository env name nU nE =
      { full_name := name, branch := none, commit_count := 0,
        status := .skipped, error := some "main/master branch not found" } := by
  unfold scan_single_repository
  rw [hc, hr]

lemma scan_single_log_error {env : RepoEnv} {name : RepositoryName}
    {nU nE b msg : String} (hc : env.clone_result = .ok ())
    (hr : resolve_mainline_branch env.has_branch = some b)
    (hl : env.log_result = .error msg) :
    scan_single_repository env name nU nE =
      { full_name := name, branch := none, commit_count := 0,
        status := .skipped, error := some msg } := by
  unfold scan_single_repository
  rw [hc, hr, hl]

lemma scan_single_success {env : RepoEnv} {name : RepositoryName}
    {nU nE b : String} {sigs : List CommitSignature}
    (hc : env.clone_result = .ok ())
    (hr : resolve_mainline_branch env.has_branch = some b)
    (hl : env.log_result = .ok sigs) :
    scan_single_repository env name nU nE =
      { full_name := name, branch := some b,
        commit_count := count_matching_commits nU nE sigs,
        status := .ok, error := none } := by
  unfold scan_single_repository
  rw [hc, hr, hl]

lemma scan_single_skipped {env : RepoEnv} {name : RepositoryName}
    {nU nE : String}
    (h : (scan_single_repository env name nU nE).status = .skipped) :
    (scan_single_repository env name nU nE).commit_count = 0 ∧
    (scan_single_repository env name nU nE).branch = none := by
  rcases hc : env.clone_result with msg | u
  · rw [scan_single_clone_error hc]
    exact ⟨rfl, rfl⟩
  · cases u
    rcases hr : resolve_mainline_branch env.has_branch with - | b
    · rw [scan_single_no_branch hc hr]
      exact ⟨rfl, rfl⟩
    · rcases hl : env.log_result with msg | sigs
      · rw [scan_single_log_error hc hr hl]
        exact ⟨rfl, rfl⟩
      · rw [scan_single_success hc hr hl] at h
        simp at h

lemma scan_single_ok_branch {env : RepoEnv} {name : RepositoryName}
    {nU nE : String}
    (h : (scan_single_repository env name nU nE).status = .ok) :
    (scan_single_repository env name nU nE).branch = some "main" ∨
    (scan_single_repository env name nU nE).branch = some "master" := by
  rcases hc : env.clone_result with msg | u
  · rw [scan_single_clone_error hc] at h
    simp at h
  · cases u
    rcases resolve_mainline_branch_cases env.has_branch with hr | hr | hr
    · rw [scan_single_no_branch hc hr] at h
      simp at h
    · rcases hl : env.log_result with msg | sigs
      · rw [scan_single_log_error hc hr hl] at h
        simp at h
      · rw [scan_single_success hc hr hl]
        exact Or.inl rfl
    · rcases hl : env.log_result with msg | sigs
      · rw [scan_single_log_error hc hr hl] at h
        simp at h
      · rw [scan_single_success hc hr hl]
        exact Or.inr rfl

/-- C10: every record produced by `_scan_single_repository` satisfies:
a `skipped` record has `commit_count = 0` and `branch = None` (the `except`
handler discards any branch resolved before a later failure), and an `ok`
record has branch `"main"` or `"master"` (the only values
`resolve_mainline_branch` can return). -/
theorem record_invariants (env : RepoEnv) (name : RepositoryName)
    (nU nE : String) :
    ((scan_single_repository env name nU nE).status = .skipped →
      (scan_single_repository env name nU nE).commit_count = 0 ∧
      (scan_single_repository env name nU nE).branch = none)
    ∧ ((scan_single_repository env name nU nE).status = .ok →
      (scan_single_repository env name nU nE).branch = some "main" ∨
      (scan_single_repository env name nU nE).branch = some "master") :=
  ⟨fun h => scan_single_skipped h, fun h => scan_single_ok_branch h⟩

/-- Environment whose log read fails after branch resolution succeeded. -/
def envLateFail : RepoEnv :=
  { clone_result := .ok (), has_branch := fun _ => true,
    log_result := .error "git log failed" }

/-- Environment where everything succeeds on `master`. -/
def envOkMaster : RepoEnv :=
  { clone_result := .ok (), has_branch := fun b => b == "master",
    log_result := .ok [] }

/-- Witness for C10 at concrete inputs: a repository that fails while
reading the log (after `main` was resolved) yields a skipped record with
zero count and no branch, and a fully successful repository yields branch
`master`. -/
theorem record_invariants_witness :
    ((scan_single_repository envLateFail ⟨"o", "r"⟩ "u" "e").commit_count = 0 ∧
      (scan_single_repository envLateFail ⟨"o", "r"⟩ "u" "e").branch = none)
    ∧ ((scan_single_repository envOkMaster ⟨"o", "r"⟩ "u" "e").branch = some "main" ∨
      (scan_single_repository envOkMaster ⟨"o", "r"⟩ "u" "e").branch = some "master") :=
  ⟨(record_invariants envLateFail ⟨"o", "r"⟩ "u" "e").1 (by decide),
   (record_invariants envOkMaster ⟨"o", "r"⟩ "u" "e").2 (by decide)⟩

/-- C7: mainline resolution probes `main` then `master` in order, returning
the first that exists and `none` when neither does; and when resolution
yields `none` (with a successful clone) the pipeline returns a `skipped`
record with reason "main/master branch not found" instead of raising. -/
theorem mainline_branch_policy (has_branch : String → Bool) (env : RepoEnv)
    (name : RepositoryName) (nU nE : String) :
    (has_branch "main" = true →
      resolve_mainline_branch has_branch = some "main")
    ∧ (has_branch "main" = false → has_branch "master" = true →
      resolve_mainline_branch has_branch = some "master")
    ∧ (has_branch "main" = false → has_branch "master" = false →
      resolve_mainline_branch has_branch = none)
    ∧ (env.clone_result = .ok () →
      resolve_mainline_branch env.has_branch = none →
      scan_single_repository env name nU nE =
        { full_name := name, branch := none, commit_count := 0,
          status := .skipped, error := some "main/master branch not found" }) := by
  refine ⟨?_, ?_, ?_, ?_⟩
  · intro h
    simp [resolve_mainline_branch, h]
  · intro h1 h2
    simp [resolve_mainline_branch, h1, h2]
  · intro h1 h2
    simp [resolve_mainline_branch, h1, h2]
  · intro hclone hres
    unfold scan_single_repository
    rw [hclone, hres]

/-- Environment with a successful clone and no remote-tracking branches. -/
def envNoBranch : RepoEnv :=
  { clone_result := .ok (), has_branch := fun _ => false,
    log_result := .ok [] }

/-- Witness for C7 at concrete inputs: a `master`-only probe resolves to
`master`, an all-`false` probe resolves to `none`, and the no-branch
environment produces the fixed skipped record. -/
theorem mainline_branch_policy_witness :
    resolve_mainline_branch (fun b => b == "master") = some "master"
    ∧ resolve_mainline_branch (fun _ => false) = none
    ∧ scan_single_repository envNoBranch ⟨"o", "r"⟩ "u" "e" =
      { full_name := ⟨"o", "r"⟩, branch := none, commit_count := 0,
        status := .skipped, error := some "main/master branch not found" } :=
  ⟨(mainline_branch_policy (fun b => b == "master") envNoBranch ⟨"o", "r"⟩ "u" "e").2.1
      (by decide) (by decide),
   (mainline_branch_policy (fun _ => false) envNoBranch ⟨"o", "r"⟩ "u" "e").2.2.1
      (by decide) (by decide),
   (mainline_branch_policy (fun _ => false) envNoBranch ⟨"o", "r"⟩ "u" "e").2.2.2
      (by decide) (by decide)⟩

/-- C5: every positive-integer or `"all"` window passes validation, and for
every invalid value (zero, negative, boolean, or any other string such as a
numeric-looking one) `count_total_commits` fails with the invalid-window
error independently of the provider and git collaborators, i.e. before any
network or process call. -/
theorem window_validation (days : DaysRange) :
    (valid_days_spec days → validate_days days = .ok ())
    ∧ (¬ valid_days_spec days →
      validate_days days =
        .error InvalidDaysRangeError.must_be_positive_int_or_all
      ∧ ∀ (provider : Except String (List RepositoryName))
          (env : RepositoryName → RepoEnv) (username : String)
          (email : Option String),
          count_total_commits provider env username email days =
            .error InvalidDaysRangeError.must_be_positive_int_or_all) := by
  constructor
  · intro hv
    cases days with
    | intDays n =>
      simp only [valid_days_spec] at hv
      have hn : ¬ (n ≤ 0) := by omega
      simp [validate_days, hn]
    | boolDays b => exact absurd hv (by simp [valid_days_spec])
    | strDays s =>
      simp only [valid_days_spec] at hv
      simp [validate_days, hv]
  · intro hv
    have herr : validate_days days =
        .error InvalidDaysRangeError.must_be_positive_int_or_all := by
      cases days with
      | intDays n =>
        simp only [valid_days_spec] at hv
        have hn : n ≤ 0 := by omega
        simp [validate_days, hn]
      | boolDays b => rfl
      | strDays s =>
        simp only [valid_days_spec] at hv
        simp [validate_days, hv]
    refine ⟨herr, fun provider env username email => ?_⟩
    unfold count_total_commits
    rw [herr]

/-- Witness for C5 at concrete inputs: `5` and `"all"` pass, while `0`,
`-3`, `True`, and the numeric-looking string `"7"` make
`count_total_commits` fail with the invalid-window message regardless of
the collaborators. -/
theorem window_validation_witness :
    validate_days (.intDays 5) = .ok ()
    ∧ validate_days (.strDays "all") = .ok ()
    ∧ count_total_commits (.ok []) (fun _ => envNoBranch) "u" none (.intDays 0) =
      .error InvalidDaysRangeError.must_be_positive_int_or_all
    ∧ count_total_commits (.ok []) (fun _ => envNoBranch) "u" none (.intDays (-3)) =
      .error InvalidDaysRangeError.must_be_positive_int_or_all
    ∧ count_total_commits (.ok []) (fun _ => envNoBranch) "u" none (.boolDays true) =
      .error InvalidDaysRangeError.must_be_positive_int_or_all
    ∧ count_total_commits (.ok []) (fun _ => envNoBranch) "u" none (.strDays "7") =
      .error InvalidDaysRangeError.must_be_positive_int_or_all :=
  ⟨(window_validation (.intDays 5)).1 (by simp [valid_days_spec]),
   (window_validation (.strDays "all")).1 (by simp [valid_days_spec]),
   ((window_validation (.intDays 0)).2 (by simp [valid_days_spec])).2 (.ok [])
     (fun _ => envNoBranch) "u" none,
   ((window_validation (.intDays (-3))).2 (by simp [valid_days_spec])).2 (.ok [])
     (fun _ => envNoBranch) "u" none,
   ((window_validation (.boolDays true)).2 (by simp [valid_days_spec])).2 (.ok [])
     (fun _ => envNoBranch) "u" none,
   ((window_validation (.strDays "7")).2 (by simp [valid_days_spec])).2 (.ok [])
     (fun _ => envNoBranch) "u" none⟩

/-- C9: parse → canonical string → parse is the identity on successfully
parsed identifiers; parsing fails for every string that does not split on
the first `/` into exactly two non-empty, slash-free segments, and in
particular for "onlyowner", "/repo", and "owner/". -/
theorem identifier_parse_roundtrip :
    (∀ (s : String) (r : RepositoryName), RepositoryName.parse s = .ok r →
      RepositoryName.parse r.as_full_name = .ok r)
    ∧ (∀ s : String, ¬ SplitsCleanly s →
      (RepositoryName.parse s).isOk = false)
    ∧ (RepositoryName.parse "onlyowner").isOk = false
    ∧ (RepositoryName.parse "/repo").isOk = false
    ∧ (RepositoryName.parse "owner/").isOk = false :=
  ⟨fun _ _ h => repository_name_parse_roundtrip h,
   fun _ h => repository_name_parse_fails h,
   by decide, by decide, by decide⟩

/-- Witness for C9 at concrete inputs: parsing the canonical form of the
identifier parsed from " octo / repo " returns the same identifier, and a
string with no separator fails parsing. -/
theorem identifier_parse_roundtrip_witness :
    RepositoryName.parse (RepositoryName.as_full_name ⟨"octo", "repo"⟩) =
      .ok ⟨"octo", "repo"⟩
    ∧ (RepositoryName.parse "justaname").isOk = false :=
  ⟨identifier_parse_roundtrip.1 " octo / repo " ⟨"octo", "repo"⟩ (by decide),
   identifier_parse_roundtrip.2.1 "justaname" (by
     rintro ⟨o, r, hdata, -, -, -, -⟩
     have hm : '/' ∈ "justaname".data := by
       rw [hdata]
       simp
     exact absurd hm (by decide))⟩

lemma handle_rate_limit_reduces {info : HttpErrorInfo} {r : Int}
    (h1 : info.has_response = true)
    (h2 : info.status = GITHUB_RATE_LIMIT_STATUS)
    (h3 : info.remaining = some "0")
    (h4 : info.reset = some r) :
    handle_rate_limit info =
      if 0 < r - info.now + 1 ∧
          r - info.now + 1 ≤ LOCAL_RATE_LIMIT_RETRY_WINDOW_SEC then
        .ok true
      else .error (r - info.now + 1) := by
  unfold handle_rate_limit
  rw [h1, h2, h3, h4]
  simp

/-- C4: for a 403 response with zero remaining quota and reset timestamp
`r`, the handler computes `wait = r - now + 1`; inside `(0, 60]` it asks for
a local retry of the same request (the loop `continue`s to re-issue it),
otherwise it raises the rate-limit failure immediately, and the wait value
reported in the `exceeded` message is clamped to be non-negative.  (The
local `time.sleep(wait)` before the retry is a real-time effect outside the
embedding.) -/
theorem rate_limit_window (info : HttpErrorInfo) (r : Int)
    (h1 : info.has_response = true)
    (h2 : info.status = GITHUB_RATE_LIMIT_STATUS)
    (h3 : info.remaining = some "0")
    (h4 : info.reset = some r) :
    ((0 < r - info.now + 1 ∧
        r - info.now + 1 ≤ LOCAL_RATE_LIMIT_RETRY_WINDOW_SEC) →
      handle_rate_limit info = .ok true)
    ∧ (¬(0 < r - info.now + 1 ∧
        r - info.now + 1 ≤ LOCAL_RATE_LIMIT_RETRY_WINDOW_SEC) →
      handle_rate_limit info = .error (r - info.now + 1))
    ∧ (∀ w : Int, 0 ≤ reported_wait w ∧
      GitHubRateLimitError.exceeded w =
        GitHubRateLimitError.exceeded (reported_wait w))
    ∧ (∀ (attempts : Nat → AttemptOutcome) (retries attempt fuel : Nat),
      attempts attempt = .httpError info →
      handle_rate_limit info = .ok true →
      get_json_aux attempts retries attempt (fuel + 1) =
        get_json_aux attempts retries (attempt + 1) fuel) := by
  refine ⟨?_, ?_, ?_, ?_⟩
  · intro hw
    rw [handle_rate_limit_reduces h1 h2 h3 h4, if_pos hw]
  · intro hw
    rw [handle_rate_limit_reduces h1 h2 h3 h4, if_neg hw]
  · intro w
    refine ⟨le_max_right w 0, ?_⟩
    unfold GitHubRateLimitError.exceeded
    have : reported_wait (reported_wait w) = reported_wait w := by
      unfold reported_wait
      omega
    rw [this]
  · intro attempts retries attempt fuel hA hRL
    conv_lhs => rw [get_json_aux]
    rw [hA]
    simp only [hRL]

/-- A 403 rate-limit error whose reset lies 50 seconds ahead of now. -/
def infoShortWait : HttpErrorInfo :=
  { has_response := true, status := 403, remaining := some "0",
    reset := some 1050, now := 1001 }

/-- A 403 rate-limit error whose reset lies 100 seconds ahead of now. -/
def infoLongWait : HttpErrorInfo :=
  { has_response := true, status := 403, remaining := some "0",
    reset := some 1100, now := 1000 }

/-- Witness for C4 at concrete inputs: a 50-second wait retries, a
101-second wait raises `exceeded(101)`, and a negative wait is reported as
`0` in the message. -/
theorem rate_limit_window_witness :
    handle_rate_limit infoShortWait = .ok true
    ∧ handle_rate_limit infoLongWait = .error 101
    ∧ 0 ≤ reported_wait (-5)
    ∧ GitHubRateLimitError.exceeded (-5) =
      GitHubRateLimitError.exceeded (reported_wait (-5)) :=
  ⟨(rate_limit_window infoShortWait 1050 rfl rfl rfl rfl).1 (by decide),
   (rate_limit_window infoLongWait 1100 rfl rfl rfl rfl).2.1 (by decide),
   ((rate_limit_window infoLongWait 1100 rfl rfl rfl rfl).2.2.1 (-5)).1,
   ((rate_limit_window infoLongWait 1100 rfl rfl rfl rfl).2.2.1 (-5)).2⟩

lemma caseEqListB_map :
    ∀ {l1 l2 : List Char}, caseEqListB l1 l2 = true →
      l1.map Char.toLower = l2.map Char.toLower := by
  intro l1
  induction l1 with
  | nil =>
    intro l2 h
    cases l2 with
    | nil => rfl
    | cons b bs => simp [caseEqListB] at h
  | cons a as ih =>
    intro l2 h
    cases l2 with
    | nil => simp [caseEqListB] at h
    | cons b bs =>
      simp only [caseEqListB, Bool.and_eq_true, beq_iff_eq] at h
      simp only [List.map, h.1, ih h.2]

lemma pyNorm_eq_of_caseWsVariant {s t : String} (h : caseWsVariant s t) :
    pyNorm s = pyNorm t := by
  unfold caseWsVariant at h
  unfold pyNorm
  rw [caseEqListB_map h]

/-- C2: the email test takes precedence -- a non-empty normalized input
email equal to the normalized author or committer email makes the commit
count irrespective of the username (the loop `continue`s without the
username test); otherwise the commit counts exactly when the normalized
input username is non-empty and equals the normalized author or committer
name; and matching is invariant under changing case or surrounding
whitespace of the identity values and signature fields. -/
theorem matching_precedence (username : String) (email : Option String)
    (sig : CommitSignature) :
    (pyNorm (email.getD "") ≠ "" →
      (pyNorm (email.getD "") = pyNorm sig.author_email ∨
        pyNorm (email.getD "") = pyNorm sig.committer_email) →
      commit_matches username email sig = true ∧
      ∀ u' : String, signature_matches u' (pyNorm (email.getD "")) sig = true)
    ∧ ((pyNorm (email.getD "") = "" ∨
        (pyNorm (email.getD "") ≠ pyNorm sig.author_email ∧
          pyNorm (email.getD "") ≠ pyNorm sig.committer_email)) →
      (commit_matches username email sig = true ↔
        (pyNorm username ≠ "" ∧
          (pyNorm username = pyNorm sig.author_name ∨
            pyNorm username = pyNorm sig.committer_name))))
    ∧ (∀ (username' : String) (email' : Option String)
        (sig' : CommitSignature),
      caseWsVariant username username' →
      caseWsVariant (email.getD "") (email'.getD "") →
      caseWsVariant sig.author_email sig'.author_email →
      caseWsVariant sig.author_name sig'.author_name →
      caseWsVariant sig.committer_email sig'.committer_email →
      caseWsVariant sig.committer_name sig'.committer_name →
      commit_matches username email sig =
        commit_matches username' email' sig') := by
  refine ⟨?_, ?_, ?_⟩
  · intro hE hm
    have hcond :
        ((pyNorm (email.getD "") != "") &&
          ((pyNorm (email.getD "") == pyNorm sig.author_email) ||
            (pyNorm (email.getD "") == pyNorm sig.committer_email))) = true := by
      have hb : (pyNorm (email.getD "") != "") = true := bne_iff_ne.mpr hE
      have hor :
          ((pyNorm (email.getD "") == pyNorm sig.author_email) ||
            (pyNorm (email.getD "") == pyNorm sig.committer_email)) = true := by
        rcases hm with h | h
        · simp [beq_iff_eq, h]
        · simp [beq_iff_eq, h]
      rw [hb, hor]
      rfl
    constructor
    · unfold commit_matches normalize_identity signature_matches
        normalize_signature
      simp only [hcond, if_true]
    · intro u'
      unfold signature_matches normalize_signature
      simp only [hcond, if_true]
  · intro hcase
    have hcond :
        ((pyNorm (email.getD "") != "") &&
          ((pyNorm (email.getD "") == pyNorm sig.author_email) ||
            (pyNorm (email.getD "") == pyNorm sig.committer_email))) = false := by
      rcases hcase with hE | ⟨hm1, hm2⟩
      · simp [hE]
      · simp [beq_iff_eq, hm1, hm2]
    unfold commit_matches normalize_identity signature_matches
      normalize_signature
    simp only [hcond, Bool.false_eq_true, if_false, Bool.and_eq_true,
      Bool.or_eq_true, bne_iff_ne, beq_iff_eq]
  · intro username' email' sig' h1 h2 h3 h4 h5 h6
    have e1 := pyNorm_eq_of_caseWsVariant h1
    have e2 := pyNorm_eq_of_caseWsVariant h2
    have e3 := pyNorm_eq_of_caseWsVariant h3
    have e4 := pyNorm_eq_of_caseWsVariant h4
    have e5 := pyNorm_eq_of_caseWsVariant h5
    have e6 := pyNorm_eq_of_caseWsVariant h6
    unfold commit_matches normalize_identity signature_matches
      normalize_signature
    rw [e1, e2, e3, e4, e5, e6]

/-- Signature whose author email matches the witness identity email after
normalization, while neither name matches the witness username. -/
def sigEmailHit : CommitSignature :=
  { author_email := " dev@example.com", author_name := "Alice",
    committer_email := "x@y", committer_name := "Carol " }

/-- Signature with no email hit whose committer name matches the witness
username after normalization. -/
def sigNameHit : CommitSignature :=
  { author_email := "a@b", author_name := "Zoe",
    committer_email := "c@d", committer_name := " ALICE " }

/-- Case/whitespace variant of `sigEmailHit`. -/
def sigEmailHitVariant : CommitSignature :=
  { author_email := "Dev@EXAMPLE.com ", author_name := " alice",
    committer_email := " X@Y ", committer_name := "carol" }

/-- Witness for C2 at concrete inputs: an email hit counts regardless of
the username, a name hit counts when the email test does not fire, and
case/whitespace variants of identity and signature agree. -/
theorem matching_precedence_witness :
    commit_matches "Bob" (some " Dev@Example.COM ") sigEmailHit = true
    ∧ signature_matches "zzz" (pyNorm " Dev@Example.COM ") sigEmailHit = true
    ∧ commit_matches " ALICE " none sigNameHit = true
    ∧ commit_matches "Bob" (some " Dev@Example.COM ") sigEmailHit =
      commit_matches " bOB " (some "dev@example.COM") sigEmailHitVariant :=
  ⟨((matching_precedence "Bob" (some " Dev@Example.COM ") sigEmailHit).1
      (by decide) (Or.inl (by decide))).1,
   ((matching_precedence "Bob" (some " Dev@Example.COM ") sigEmailHit).1
      (by decide) (Or.inl (by decide))).2 "zzz",
   ((matching_precedence " ALICE " none sigNameHit).2.1
      (Or.inl (by decide))).mpr ⟨by decide, Or.inr (by decide)⟩,
   (matching_precedence "Bob" (some " Dev@Example.COM ") sigEmailHit).2.2
      " bOB " (some "dev@example.COM") sigEmailHitVariant
      (by decide) (by decide) (by decide) (by decide) (by decide) (by decide)⟩

lemma get_json_aux_congr {attempts attempts' : Nat → AttemptOutcome}
    {retries : Nat} :
    ∀ (fuel attempt : Nat),
      (∀ n, attempt ≤ n → n < attempt + fuel → attempts n = attempts' n) →
      get_json_aux attempts retries attempt fuel =
        get_json_aux attempts' retries attempt fuel := by
  intro fuel
  induction fuel with
  | zero => intro attempt h; rfl
  | succ m ih =>
    intro attempt h
    have hcur : attempts attempt = attempts' attempt :=
      h attempt (le_refl _) (by omega)
    have hnext : ∀ n, attempt + 1 ≤ n → n < attempt + 1 + m →
        attempts n = attempts' n :=fun n h1 h2 => h n (by omega) (by omega)
    conv_lhs => rw [get_json_aux]
    conv_rhs => rw [get_json_aux]
    rw [hcur]
    cases han : attempts' attempt with
    | success b => cases b <;> rfl
    | httpError info =>
      cases hrl : handle_rate_limit info with
      | ok b =>
        cases b
        · simp only [hrl]
        · simp only [hrl]
          exact ih (attempt + 1) hnext
      | error w => simp only [hrl]
    | connError =>
      by_cases hlt : attempt < retries
      · simp only [hlt, if_true]
        exact ih (attempt + 1) hnext
      · simp only [hlt, if_false]

lemma get_json_aux_all_rate_limited {attempts : Nat → AttemptOutcome}
    {retries : Nat}
    (h : ∀ n, retryable_rate_limit (attempts n) = true) :
    ∀ (fuel attempt : Nat),
      get_json_aux attempts retries attempt fuel = .error .apiError := by
  intro fuel
  induction fuel with
  | zero => intro attempt; rfl
  | succ m ih =>
    intro attempt
    have hn := h attempt
    conv_lhs => rw [get_json_aux]
    cases han : attempts attempt with
    | success b => rw [han] at hn; simp [retryable_rate_limit] at hn
    | connError => rw [han] at hn; simp [retryable_rate_limit] at hn
    | httpError info =>
      rw [han] at hn
      unfold retryable_rate_limit at hn
      cases hrl : handle_rate_limit info with
      | ok b =>
        cases b
        · simp only [hrl] at hn
          exact Bool.noConfusion hn
        · simp only [hrl]
          exact ih (attempt + 1)
      | error w =>
        simp only [hrl] at hn
        exact Bool.noConfusion hn

/-- C3 (amended): a rate-limit retry consumes an attempt of the shared
retry budget -- the request loop makes at most `retries` attempts in total
(the result never depends on attempt outcomes beyond index `retries`), and
when every attempt hits an in-window rate limit the budget is exhausted and
the call fails with the generic `GitHubApiError.request_failed()` even
though each individual wait was retryable. -/
theorem rate_limit_budget (attempts attempts' : Nat → AttemptOutcome)
    (retries : Nat) :
    ((∀ n, 1 ≤ n → n ≤ retries → attempts n = attempts' n) →
      get_json attempts retries = get_json attempts' retries)
    ∧ ((∀ n, retryable_rate_limit (attempts n) = true) →
      get_json attempts retries = .error .apiError) := by
  constructor
  · intro h
    unfold get_json
    exact get_json_aux_congr retries 1 fun n h1 h2 => h n h1 (by omega)
  · intro h
    unfold get_json
    exact get_json_aux_all_rate_limited h retries 1

/-- A 403 rate-limit response whose reset wait is 1 second (in-window). -/
def rlInfo : HttpErrorInfo :=
  { has_response := true, status := 403, remaining := some "0",
    reset := some 5, now := 5 }

/-- Attempt outcomes: the first two attempts hit an in-window rate limit,
every later attempt would succeed. -/
def rlAttempts : Nat → AttemptOutcome := fun n =>
  if n ≤ 2 then .httpError rlInfo else .success true

/-- Counterexample to C3 as stated: with a retry budget of 2 and in-window
rate limits on the first two attempts, the code raises
`GitHubApiError.request_failed()` instead of reaching the third attempt
(which would succeed); raising the budget to 3 makes the same outcomes
succeed.  Rate-limit retries therefore do consume the transient-failure
retry budget and are not unbounded in count. -/
theorem rate_limit_budget_counterexample :
    get_json rlAttempts 2 = .error .apiError
    ∧ get_json rlAttempts 2 ≠ .ok ()
    ∧ get_json rlAttempts 3 = .ok () := by
  refine ⟨by decide, by decide, by decide⟩

/-- Attempt outcomes differing from `rlAttempts` only from index 3 on. -/
def rlAttemptsTail : Nat → AttemptOutcome := fun n =>
  if n ≤ 2 then .httpError rlInfo else .connError

/-- Witness for the amended C3 at concrete inputs: with budget 1 an
endless in-window rate limit exhausts the budget into `request_failed`, and
with budget 2 the outcomes beyond attempt 2 are never consulted. -/
theorem rate_limit_budget_witness :
    get_json (fun _ => .httpError rlInfo) 1 = .error .apiError
    ∧ get_json rlAttempts 2 = get_json rlAttemptsTail 2 :=
  ⟨(rate_limit_budget (fun _ => .httpError rlInfo)
      (fun _ => .httpError rlInfo) 1).2 (fun _ => by decide),
   (rate_limit_budget rlAttempts rlAttemptsTail 2).1 (fun n h1 h2 => by
     unfold rlAttempts rlAttemptsTail
     rw [if_pos h2, if_pos h2])⟩

lemma acq_or_branch_failed_spec {env : RepoEnv}
    (h : acq_or_branch_failed env = true) :
    (∃ msg, env.clone_result = .error msg) ∨
      (env.clone_result = .ok () ∧
        resolve_mainline_branch env.has_branch = none) := by
  unfold acq_or_branch_failed at h
  rcases hc : env.clone_result with msg | u
  · exact .inl ⟨msg, rfl⟩
  · cases u
    simp only [hc] at h
    rcases ho : resolve_mainline_branch env.has_branch with - | b
    · exact .inr ⟨rfl, rfl⟩
    · rw [ho] at h
      simp at h

lemma fully_successful_spec {env : RepoEnv}
    (h : fully_successful env = true) :
    ∃ b sigs, env.clone_result = .ok () ∧
      resolve_mainline_branch env.has_branch = some b ∧
      env.log_result = .ok sigs := by
  unfold fully_successful at h
  rcases hc : env.clone_result with msg | u
  · simp only [hc] at h
    exact Bool.noConfusion h
  · cases u
    rcases hl : env.log_result with msg | sigs
    · simp only [hc, hl] at h
      exact Bool.noConfusion h
    · simp only [hc, hl] at h
      rcases ho : resolve_mainline_branch env.has_branch with - | b
      · rw [ho] at h
        simp at h
      · exact ⟨b, sigs, rfl, rfl, rfl⟩

lemma scan_single_of_acq_failed {env : RepoEnv} {name : RepositoryName}
    {nU nE : String} (h : acq_or_branch_failed env = true) :
    (scan_single_repository env name nU nE).status = .skipped ∧
    (scan_single_repository env name nU nE).commit_count = 0 := by
  rcases acq_or_branch_failed_spec h with ⟨msg, hc⟩ | ⟨hc, ho⟩
  · rw [scan_single_clone_error hc]
    exact ⟨rfl, rfl⟩
  · rw [scan_single_no_branch hc ho]
    exact ⟨rfl, rfl⟩

lemma scan_single_of_fully_successful {env : RepoEnv} {name : RepositoryName}
    {nU nE : String} (h : fully_successful env = true) :
    (scan_single_repository env name nU nE).status = .ok ∧
    (scan_single_repository env name nU nE).commit_count =
      success_count env nU nE := by
  obtain ⟨b, sigs, hc, hr, hl⟩ := fully_successful_spec h
  rw [scan_single_success hc hr hl]
  refine ⟨rfl, ?_⟩
  simp only [success_count, hl]

lemma acq_failed_not_fully {env : RepoEnv}
    (h : acq_or_branch_failed env = true) : fully_successful env = false := by
  rcases acq_or_branch_failed_spec h with ⟨msg, hc⟩ | ⟨hc, ho⟩
  · simp [fully_successful, hc]
  · rcases hl : env.log_result with msg | sigs
    · simp [fully_successful, hc, hl]
    · simp [fully_successful, hc, hl, ho]

lemma fully_not_acq_failed {env : RepoEnv}
    (h : fully_successful env = true) : acq_or_branch_failed env = false := by
  obtain ⟨b, sigs, hc, hr, hl⟩ := fully_successful_spec h
  simp [acq_or_branch_failed, hc, hr]

lemma sum_commit_counts_eq_ok {l : List RepositoryCommitCount}
    (h : ∀ i ∈ l, i.status = .skipped → i.commit_count = 0) :
    (l.map fun i => i.commit_count).sum =
      ((l.filter fun i => i.status == .ok).map fun i => i.commit_count).sum := by
  induction l with
  | nil => rfl
  | cons a l ih =>
    have ha := h a (List.mem_cons_self _ _)
    have hl : ∀ i ∈ l, i.status = .skipped → i.commit_count = 0 := fun i hi =>
      h i (List.mem_cons_of_mem _ hi)
    cases hs : a.status with
    | ok => simp [List.filter_cons, hs, ih hl]
    | skipped => simp [List.filter_cons, hs, ih hl, ha hs]

lemma scan_repositories_skipped_zero (env : RepositoryName → RepoEnv)
    (repos : List RepositoryName) (nU nE : String) :
    ∀ i ∈ scan_repositories env repos nU nE,
      i.status = .skipped → i.commit_count = 0 := by
  intro i hi
  simp only [scan_repositories, List.mem_map] at hi
  obtain ⟨r, hr, rfl⟩ := hi
  intro hs
  exact (scan_single_skipped hs).1

lemma skipped_filter_length (env : RepositoryName → RepoEnv)
    (nU nE : String) :
    ∀ repos : List RepositoryName,
      (∀ r ∈ repos, acq_or_branch_failed (env r) = true ∨
        fully_successful (env r) = true) →
      ((scan_repositories env repos nU nE).filter
        fun i => i.status == .skipped).length =
        (repos.filter fun r => acq_or_branch_failed (env r)).length := by
  intro repos
  induction repos with
  | nil => intro h; rfl
  | cons r rs ih =>
    intro h
    have hr := h r (List.mem_cons_self _ _)
    have hrs := ih fun x hx => h x (List.mem_cons_of_mem _ hx)
    simp only [scan_repositories, List.map_cons, List.filter_cons] at hrs ⊢
    rcases hr with hf | hs
    · have h1 := (@scan_single_of_acq_failed (env r) r nU nE hf).1
      simp [h1, hf, hrs]
    · have h1 := (@scan_single_of_fully_successful (env r) r nU nE hs).1
      have h2 := fully_not_acq_failed hs
      simp [h1, h2, hrs]

lemma total_filter_sum (env : RepositoryName → RepoEnv) (nU nE : String) :
    ∀ repos : List RepositoryName,
      (∀ r ∈ repos, acq_or_branch_failed (env r) = true ∨
        fully_successful (env r) = true) →
      ((scan_repositories env repos nU nE).map
        fun i => i.commit_count).sum =
        ((repos.filter fun r => fully_successful (env r)).map
          fun r => success_count (env r) nU nE).sum := by
  intro repos
  induction repos with
  | nil => intro h; rfl
  | cons r rs ih =>
    intro h
    have hr := h r (List.mem_cons_self _ _)
    have hrs := ih fun x hx => h x (List.mem_cons_of_mem _ hx)
    simp only [scan_repositories, List.map_cons, List.filter_cons,
      List.map_map] at hrs ⊢
    rcases hr with hf | hs
    · have h1 := (@scan_single_of_acq_failed (env r) r nU nE hf).2
      have h2 := acq_failed_not_fully hf
      simp [h1, h2, hrs]
    · have h1 := (@scan_single_of_fully_successful (env r) r nU nE hs).2
      have h2 := fully_not_acq_failed hs
      simp [h1, hs, hrs]

/-- C1: the aggregate built by the pipeline satisfies
`repos_scanned = len(repo_results)`,
`total_commits = Σ commit_count over status=ok records`, and
`repos_skipped = count(status=skipped)`; and when each of the N discovered
repositories either fails acquisition/branch-resolution or fully succeeds,
with exactly K failing, then `repos_skipped = K`, `repos_scanned = N`, and
`total_commits` is the sum of match counts over the N - K successful
repositories. -/
theorem aggregate_invariants (env : RepositoryName → RepoEnv)
    (repositories : List RepositoryName) (nU nE : String) :
    ((build_result repositories
        (scan_repositories env repositories nU nE)).repos_scanned =
      (build_result repositories
        (scan_repositories env repositories nU nE)).repo_results.length
    ∧ (build_result repositories
        (scan_repositories env repositories nU nE)).total_commits =
      (((build_result repositories
          (scan_repositories env repositories nU nE)).repo_results.filter
            fun i => i.status == .ok).map fun i => i.commit_count).sum
    ∧ (build_result repositories
        (scan_repositories env repositories nU nE)).repos_skipped =
      ((build_result repositories
          (scan_repositories env repositories nU nE)).repo_results.filter
            fun i => i.status == .skipped).length)
    ∧ ((∀ r ∈ repositories, acq_or_branch_failed (env r) = true ∨
        fully_successful (env r) = true) →
      (build_result repositories
          (scan_repositories env repositories nU nE)).repos_skipped =
        (repositories.filter fun r => acq_or_branch_failed (env r)).length
      ∧ (build_result repositories
          (scan_repositories env repositories nU nE)).repos_scanned =
        repositories.length
      ∧ (build_result repositories
          (scan_repositories env repositories nU nE)).total_commits =
        ((repositories.filter fun r => fully_successful (env r)).map
          fun r => success_count (env r) nU nE).sum) := by
  constructor
  · refine ⟨?_, ?_, ?_⟩
    · simp [build_result, scan_repositories]
    · exact sum_commit_counts_eq_ok
        (scan_repositories_skipped_zero env repositories nU nE)
    · rfl
  · intro h
    exact ⟨skipped_filter_length env nU nE repositories h, rfl,
      total_filter_sum env nU nE repositories h⟩

/-- Signature matching the witness identity by email only. -/
def sigDevEmail : CommitSignature :=
  { author_email := "dev@x.io", author_name := "Someone",
    committer_email := "o@x", committer_name := "Other" }

/-- Signature matching the witness identity by author name only. -/
def sigDevName : CommitSignature :=
  { author_email := "a@b", author_name := "Dev",
    committer_email := "c@d", committer_name := "X" }

/-- Three-repository scenario: `a/repo1` succeeds with two matching
commits, `a/repo2` fails to clone, `a/repo3` has no mainline branch. -/
def env3 : RepositoryName → RepoEnv := fun r =>
  if r = ⟨"a", "repo2"⟩ then
    { clone_result := .error "clone failed", has_branch := fun _ => false,
      log_result := .ok [] }
  else if r = ⟨"a", "repo3"⟩ then
    { clone_result := .ok (), has_branch := fun _ => false,
      log_result := .ok [] }
  else
    { clone_result := .ok (), has_branch := fun b => b == "main",
      log_result := .ok [sigDevEmail, sigDevName] }

/-- The discovered repositories of the witness scenario. -/
def repos3 : List RepositoryName :=
  [⟨"a", "repo1"⟩, ⟨"a", "repo2"⟩, ⟨"a", "repo3"⟩]

/-- Witness for C1 at the concrete three-repository scenario (N = 3,
K = 2). -/
theorem aggregate_invariants_witness :
    (build_result repos3
        (scan_repositories env3 repos3 "dev" "dev@x.io")).repos_skipped =
      (repos3.filter fun r => acq_or_branch_failed (env3 r)).length
    ∧ (build_result repos3
        (scan_repositories env3 repos3 "dev" "dev@x.io")).repos_scanned =
      repos3.length
    ∧ (build_result repos3
        (scan_repositories env3 repos3 "dev" "dev@x.io")).total_commits =
      ((repos3.filter fun r => fully_successful (env3 r)).map
        fun r => success_count (env3 r) "dev" "dev@x.io").sum :=
  (aggregate_invariants env3 repos3 "dev" "dev@x.io").2 (by decide)

example :
    (build_result repos3
      (scan_repositories env3 repos3 "dev" "dev@x.io")).total_commits = 2 := by
  decide

example :
    (build_result repos3
      (scan_repositories env3 repos3 "dev" "dev@x.io")).repos_scanned = 3 := by
  decide

example :
    (build_result repos3
      (scan_repositories env3 repos3 "dev" "dev@x.io")).repos_skipped = 2 := by
  decide

example :
    ((build_result repos3
      (scan_repositories env3 repos3 "dev" "dev@x.io")).repo_results.map
        fun i => i.status) = [.ok, .skipped, .skipped] := by
  decide

example :
    count_total_commits (.ok []) (fun _ => envNoBranch) "u" none
      (.intDays 30) = .ok empty_result := by
  decide

lemma add_page_items_nodup :
    ∀ {items : List SearchItem} {acc out : List RepositoryName},
      add_page_items acc items = .ok out → acc.Nodup → out.Nodup := by
  intro items
  induction items with
  | nil =>
    intro acc out h hd
    simp only [add_page_items] at h
    cases h
    exact hd
  | cons item rest ih =>
    intro acc out h hd
    simp only [add_page_items] at h
    cases hf : item.full_name with
    | none =>
      simp only [hf] at h
      exact ih h hd
    | some s =>
      simp only [hf] at h
      by_cases hs : s = ""
      · rw [if_neg (by simp [hs])] at h
        exact ih h hd
      · rw [if_pos hs] at h
        cases hp : RepositoryName.parse s with
        | error e =>
          simp only [hp] at h
          exact Except.noConfusion h
        | ok r =>
          simp only [hp] at h
          refine ih h ?_
          by_cases hm : r ∈ acc
          · rw [if_pos hm]
            exact hd
          · rw [if_neg hm]
            simp [List.nodup_append, hd, hm]

lemma fetch_pages_succ_empty {pages : Nat → List SearchItem}
    {page n : Nat} {acc : List RepositoryName}
    (he : (pages page).isEmpty = true) :
    fetch_pages pages page (n + 1) acc =
      ([(page, SEARCH_PAGE_SIZE)], .ok acc) := by
  simp only [fetch_pages, he, if_true]

lemma fetch_pages_succ_error {pages : Nat → List SearchItem}
    {page n : Nat} {acc : List RepositoryName} {e : String}
    (he : (pages page).isEmpty = false)
    (ha : add_page_items acc (pages page) = .error e) :
    fetch_pages pages page (n + 1) acc =
      ([(page, SEARCH_PAGE_SIZE)], .error e) := by
  simp only [fetch_pages, he, ha, Bool.false_eq_true, if_false]

lemma fetch_pages_succ_ok {pages : Nat → List SearchItem}
    {page n : Nat} {acc acc2 : List RepositoryName}
    (he : (pages page).isEmpty = false)
    (ha : add_page_items acc (pages page) = .ok acc2) :
    fetch_pages pages page (n + 1) acc =
      ((page, SEARCH_PAGE_SIZE) :: (fetch_pages pages (page + 1) n acc2).1,
        (fetch_pages pages (page + 1) n acc2).2) := by
  simp only [fetch_pages, he, ha, Bool.false_eq_true, if_false]

lemma fetch_pages_nodup {pages : Nat → List SearchItem} :
    ∀ (remaining page : Nat) (acc out : List RepositoryName),
      (fetch_pages pages page remaining acc).2 = .ok out →
      acc.Nodup → out.Nodup := by
  intro remaining
  induction remaining with
  | zero =>
    intro page acc out h hd
    cases h
    exact hd
  | succ n ih =>
    intro page acc out h hd
    by_cases he : (pages page).isEmpty
    · rw [fetch_pages_succ_empty he] at h
      cases h
      exact hd
    · rw [Bool.not_eq_true] at he
      cases ha : add_page_items acc (pages page) with
      | error e =>
        rw [fetch_pages_succ_error he ha] at h
        cases h
      | ok acc2 =>
        rw [fetch_pages_succ_ok he ha] at h
        exact ih (page + 1) acc2 out h (add_page_items_nodup ha hd)

/-- C6: a successful discovery returns each repository identifier exactly
once, no matter how many raw search hits or pages produced it, and the
pipeline's `repos_scanned` equals the number of these distinct identifiers. -/
theorem discovery_dedup (pages : Nat → List SearchItem)
    (max_search_pages : Nat) (repos : List RepositoryName)
    (env : RepositoryName → RepoEnv) (nU nE : String)
    (h : find_repositories_for_author pages max_search_pages = .ok repos) :
    repos.Nodup
    ∧ (∀ r ∈ repos, repos.count r = 1)
    ∧ (build_result repos
        (scan_repositories env repos nU nE)).repos_scanned = repos.length := by
  have hnd : repos.Nodup :=
    fetch_pages_nodup max_search_pages 1 [] repos h List.nodup_nil
  exact ⟨hnd, fun r hr => List.count_eq_one_of_mem hnd hr, rfl⟩

/-- Search pages where `a/b` appears three times across two pages (plus a
hit with a missing repository and one with an empty full name); page 3 is
empty. -/
def pagesDup : Nat → List SearchItem := fun n =>
  if n = 1 then [⟨some "a/b"⟩, ⟨some "a/b"⟩, ⟨some "c/d"⟩]
  else if n = 2 then [⟨some "a/b"⟩, ⟨none⟩, ⟨some ""⟩]
  else []

example :
    find_repositories_for_author pagesDup 5 =
      .ok [⟨"a", "b"⟩, ⟨"c", "d"⟩] := by
  decide

/-- Witness for C6 at concrete inputs: out of four raw `a/b`/`c/d` hits
across two pages, the candidate list keeps `a/b` exactly once and
`repos_scanned` is the number of distinct identifiers (2, not 4). -/
theorem discovery_dedup_witness :
    (([⟨"a", "b"⟩, ⟨"c", "d"⟩] : List RepositoryName).count ⟨"a", "b"⟩ = 1)
    ∧ (build_result [⟨"a", "b"⟩, ⟨"c", "d"⟩]
        (scan_repositories (fun _ => envNoBranch)
          [⟨"a", "b"⟩, ⟨"c", "d"⟩] "u" "e")).repos_scanned = 2 :=
  have h := discovery_dedup pagesDup 5 [⟨"a", "b"⟩, ⟨"c", "d"⟩]
    (fun _ => envNoBranch) "u" "e" (by decide)
  ⟨h.2.1 ⟨"a", "b"⟩ (by decide), h.2.2.trans (by decide)⟩

lemma fetch_requests_mem {pages : Nat → List SearchItem} :
    ∀ (remaining page : Nat) (acc : List RepositoryName) (pr : Nat × Nat),
      pr ∈ (fetch_pages pages page remaining acc).1 →
      pr.2 = SEARCH_PAGE_SIZE ∧ page ≤ pr.1 ∧ pr.1 < page + remaining := by
  intro remaining
  induction remaining with
  | zero =>
    intro page acc pr h
    simp [fetch_pages] at h
  | succ n ih =>
    intro page acc pr h
    by_cases he : (pages page).isEmpty
    · rw [fetch_pages_succ_empty he] at h
      simp only [List.mem_singleton] at h
      subst h
      exact ⟨rfl, le_refl _, by omega⟩
    · rw [Bool.not_eq_true] at he
      cases ha : add_page_items acc (pages page) with
      | error e =>
        rw [fetch_pages_succ_error he ha] at h
        simp only [List.mem_singleton] at h
        subst h
        exact ⟨rfl, le_refl _, by omega⟩
      | ok acc2 =>
        rw [fetch_pages_succ_ok he ha] at h
        rcases List.mem_cons.mp h with h | h
        · subst h
          exact ⟨rfl, le_refl _, by omega⟩
        · obtain ⟨h1, h2, h3⟩ := ih (page + 1) acc2 pr h
          exact ⟨h1, by omega, by omega⟩

lemma fetch_requests_sorted {pages : Nat → List SearchItem} :
    ∀ (remaining page : Nat) (acc : List RepositoryName),
      ((fetch_pages pages page remaining acc).1).Pairwise
        (fun a b => a.1 < b.1) := by
  intro remaining
  induction remaining with
  | zero =>
    intro page acc
    simp [fetch_pages]
  | succ n ih =>
    intro page acc
    by_cases he : (pages page).isEmpty
    · rw [fetch_pages_succ_empty he]
      simp
    · rw [Bool.not_eq_true] at he
      cases ha : add_page_items acc (pages page) with
      | error e =>
        rw [fetch_pages_succ_error he ha]
        simp
      | ok acc2 =>
        rw [fetch_pages_succ_ok he ha]
        refine List.Pairwise.cons ?_ (ih (page + 1) acc2)
        intro b hb
        have := (fetch_requests_mem n (page + 1) acc2 b hb).2.1
        omega

lemma fetch_requests_prev_nonempty {pages : Nat → List SearchItem} :
    ∀ (remaining page : Nat) (acc : List RepositoryName) (p q : Nat),
      (p, SEARCH_PAGE_SIZE) ∈ (fetch_pages pages page remaining acc).1 →
      page ≤ q → q < p → (pages q).isEmpty = false := by
  intro remaining
  induction remaining with
  | zero =>
    intro page acc p q h
    simp [fetch_pages] at h
  | succ n ih =>
    intro page acc p q h hq hqp
    by_cases he : (pages page).isEmpty
    · rw [fetch_pages_succ_empty he] at h
      simp only [List.mem_singleton, Prod.mk.injEq] at h
      omega
    · rw [Bool.not_eq_true] at he
      cases ha : add_page_items acc (pages page) with
      | error e =>
        rw [fetch_pages_succ_error he ha] at h
        simp only [List.mem_singleton, Prod.mk.injEq] at h
        omega
      | ok acc2 =>
        rw [fetch_pages_succ_ok he ha] at h
        rcases List.mem_cons.mp h with h | h
        · simp only [Prod.mk.injEq] at h
          omega
        · by_cases hqpage : q = page
          · subst hqpage
            exact he
          · exact ih (page + 1) acc2 p q h (by omega) hqp

lemma fetch_requests_complete {pages : Nat → List SearchItem} :
    ∀ (remaining page : Nat) (acc out : List RepositoryName) (p : Nat),
      (fetch_pages pages page remaining acc).2 = .ok out →
      page ≤ p → p < page + remaining →
      (∀ q, page ≤ q → q < p → (pages q).isEmpty = false) →
      (p, SEARCH_PAGE_SIZE) ∈ (fetch_pages pages page remaining acc).1 := by
  intro remaining
  induction remaining with
  | zero =>
    intro page acc out p hok h1 h2 hq
    omega
  | succ n ih =>
    intro page acc out p hok h1 h2 hq
    by_cases he : (pages page).isEmpty
    · rw [fetch_pages_succ_empty he]
      by_cases hp : p = page
      · subst hp
        simp
      · have := hq page (le_refl _) (by omega)
        rw [he] at this
        exact Bool.noConfusion this
    · rw [Bool.not_eq_true] at he
      cases ha : add_page_items acc (pages page) with
      | error e =>
        rw [fetch_pages_succ_error he ha] at hok
        exact Except.noConfusion hok
      | ok acc2 =>
        rw [fetch_pages_succ_ok he ha] at hok ⊢
        by_cases hp : p = page
        · subst hp
          simp
        · refine List.mem_cons_of_mem _ ?_
          exact ih (page + 1) acc2 out p hok (by omega) (by omega)
            (fun q hq1 hq2 => hq q (by omega) hq2)

/-- C8: search pagination issues 1-indexed requests with fixed page size
100, in strictly increasing order, never requesting a page beyond the cap
or beyond the first empty page; and on a successful run a page is requested
exactly when it is within the cap and every earlier page was non-empty
(so pagination stops at the first empty page or at the cap, whichever comes
first). -/
theorem pagination_policy (pages : Nat → List SearchItem)
    (max_search_pages : Nat) (repos : List RepositoryName) :
    (∀ pr ∈ search_requests pages max_search_pages,
      pr.2 = SEARCH_PAGE_SIZE ∧ 1 ≤ pr.1 ∧ pr.1 ≤ max_search_pages)
    ∧ (search_requests pages max_search_pages).Pairwise
      (fun a b => a.1 < b.1)
    ∧ (∀ p q : Nat, (p, SEARCH_PAGE_SIZE) ∈
        search_requests pages max_search_pages →
      1 ≤ q → q < p → (pages q).isEmpty = false)
    ∧ (find_repositories_for_author pages max_search_pages = .ok repos →
      ∀ p : Nat, ((p, SEARCH_PAGE_SIZE) ∈
          search_requests pages max_search_pages ↔
        (1 ≤ p ∧ p ≤ max_search_pages ∧
          ∀ q, 1 ≤ q → q < p → (pages q).isEmpty = false))) := by
  refine ⟨?_, ?_, ?_, ?_⟩
  · intro pr h
    obtain ⟨h1, h2, h3⟩ := fetch_requests_mem max_search_pages 1 [] pr h
    exact ⟨h1, h2, by omega⟩
  · exact fetch_requests_sorted max_search_pages 1 []
  · intro p q h hq hqp
    exact fetch_requests_prev_nonempty max_search_pages 1 [] p q h hq hqp
  · intro hok p
    constructor
    · intro h
      obtain ⟨-, h2, h3⟩ := fetch_requests_mem max_search_pages 1 [] _ h
      exact ⟨h2, by omega,
        fun q hq1 hq2 =>
          fetch_requests_prev_nonempty max_search_pages 1 [] p q h hq1 hq2⟩
    · intro ⟨h1, h2, h3⟩
      exact fetch_requests_complete max_search_pages 1 [] repos p hok h1
        (by omega) h3

example :
    search_requests pagesDup 5 =
      [(1, SEARCH_PAGE_SIZE), (2, SEARCH_PAGE_SIZE), (3, SEARCH_PAGE_SIZE)] := by
  decide

/-- Witness for C8 at concrete inputs: with page 3 empty and a cap of 5,
page 3 is requested (it is the first empty page), page 4 is not, and every
issued request carries page size 100 within the cap. -/
theorem pagination_policy_witness :
    ((3, SEARCH_PAGE_SIZE) ∈ search_requests pagesDup 5 ↔
      (1 ≤ 3 ∧ 3 ≤ 5 ∧ ∀ q, 1 ≤ q → q < 3 → (pagesDup q).isEmpty = false))
    ∧ ((4, SEARCH_PAGE_SIZE) ∈ search_requests pagesDup 5 ↔
      (1 ≤ 4 ∧ 4 ≤ 5 ∧ ∀ q, 1 ≤ q → q < 4 → (pagesDup q).isEmpty = false))
    ∧ ((2, SEARCH_PAGE_SIZE).2 = SEARCH_PAGE_SIZE ∧
      1 ≤ (2, SEARCH_PAGE_SIZE).1 ∧ (2, SEARCH_PAGE_SIZE).1 ≤ 5) :=
  ⟨(pagination_policy pagesDup 5 [⟨"a", "b"⟩, ⟨"c", "d"⟩]).2.2.2 (by decide) 3,
   (pagination_policy pagesDup 5 [⟨"a", "b"⟩, ⟨"c", "d"⟩]).2.2.2 (by decide) 4,
   (pagination_policy pagesDup 5 [⟨"a", "b"⟩, ⟨"c", "d"⟩]).1
     (2, SEARCH_PAGE_SIZE) (by decide)⟩

end Contriboo
